import Mathlib

/-!
# Verification of the `batchrename` core (datamike-cli-utils)

Shallow embedding of `src/bin/batchrename.py`: path-source enumeration
(`gen_files`), renumbering-spec parsing (`init_renumbering`) and the
batch-rename engine (`batch_rename`).  Python strings are modelled as
`List Char`; the compiled regular expression object produced by
`re.compile(cfg.pattern, cfg.regex_flags)` is modelled as a `Matcher`
record holding the two operations the engine uses (`.match`, anchored at
the start, and `.sub`, substituting every non-overlapping occurrence).
Python exceptions are modelled with `Except`.
-/

set_option linter.unusedVariables false

deriving instance DecidableEq for Except

/-- Python strings are modelled as lists of characters. -/
abbrev Str := List Char

/-- Characters Python's `str.strip()` / `int()` treat as whitespace
(ASCII fragment of Python's notion of whitespace). -/
def isPySpace (c : Char) : Bool :=
  c = ' ' || c = '\t' || c = '\n' || c = '\r' || c = '\x0b' || c = '\x0c'

/-- Model of Python `str.strip()`: drop leading and trailing whitespace. -/
def pyStrip (s : Str) : Str :=
  ((s.dropWhile isPySpace).reverse.dropWhile isPySpace).reverse

/-- The decimal digit character for `n < 10` (used by the model of `str(int)`). -/
def digitChar : Nat → Char
  | 0 => '0' | 1 => '1' | 2 => '2' | 3 => '3' | 4 => '4'
  | 5 => '5' | 6 => '6' | 7 => '7' | 8 => '8' | _ => '9'

/-- Fuel-driven most-significant-first decimal digits of a natural number.
`fuel` bounds the recursion depth; any `fuel ≥ n` is enough. -/
def natDigitsGo : Nat → Nat → Str
  | 0, _ => []
  | fuel + 1, n => if n = 0 then [] else natDigitsGo fuel (n / 10) ++ [digitChar (n % 10)]

/-- Decimal digit string of a natural number, as produced by Python `str`. -/
def natDigits (n : Nat) : Str :=
  if n = 0 then ['0'] else natDigitsGo (n + 1) n

/-- Model of Python `str(n)` for an `int` value `n`. -/
def intStr (n : Int) : Str :=
  if n < 0 then '-' :: natDigits (-n).toNat else natDigits n.toNat

/-- Model of Python `str.zfill(width)`: left-pad with `'0'` to length
`width`, keeping a leading sign character in front of the padding.
Widths `≤ 0` pad nothing, as in Python. -/
def zfill (s : Str) (width : Int) : Str :=
  if s.length ≥ width.toNat then s
  else if s = [] then List.replicate width.toNat '0'
  else if s.headI = '+' ∨ s.headI = '-' then
    s.headI :: (List.replicate (width.toNat - s.length) '0' ++ s.tail)
  else List.replicate (width.toNat - s.length) '0' ++ s

/-- The formatted numeral the engine substitutes for the token: the model of
`str(n).zfill(zero_pad)` (batchrename.py lines 271 and 282). -/
def formatN (n : Int) (zero_pad : Int) : Str :=
  zfill (intStr n) zero_pad

/-- Numeric value of a list of decimal digit characters. -/
def natFromDigits (ds : Str) : Nat :=
  ds.foldl (fun acc c => acc * 10 + (c.toNat - 48)) 0

/-- Validity of the part after the leading digit in a Python integer
literal: digits possibly separated by single underscores. -/
def pyDigitsTail : Str → Bool
  | [] => true
  | '_' :: d :: r => d.isDigit && pyDigitsTail r
  | '_' :: [] => false
  | d :: r => d.isDigit && pyDigitsTail r

/-- A valid Python decimal digit sequence: nonempty, starts with a digit,
single underscores allowed between digits. -/
def pyDigitsOk : Str → Bool
  | [] => false
  | c :: rest => c.isDigit && pyDigitsTail rest

/-- Python exceptions raised by the engine. -/
inductive PyErr where
  /-- `IndexError`, raised by `m.group(k)` when the pattern has no group `k`. -/
  | indexError : PyErr
  /-- `TypeError`, raised by `int(None)` when the group did not participate
  in the match. -/
  | typeError : PyErr
  /-- `ValueError`, raised by `int(...)` on a malformed string and by
  `init_renumbering` on a malformed renumbering spec. -/
  | valueError (msg : Str) : PyErr
deriving DecidableEq

/-- Model of Python `int(s)` for a string argument (ASCII decimal):
strip whitespace, optional sign, digits with optional single underscores. -/
def pyInt (s : Str) : Except PyErr Int :=
  let t := pyStrip s
  match t with
  | [] => Except.error (PyErr.valueError t)
  | c :: rest =>
    if c = '+' then
      if pyDigitsOk rest then Except.ok (natFromDigits (rest.filter (· ≠ '_')) : Int)
      else Except.error (PyErr.valueError t)
    else if c = '-' then
      if pyDigitsOk rest then Except.ok (-(natFromDigits (rest.filter (· ≠ '_')) : Int))
      else Except.error (PyErr.valueError t)
    else
      if pyDigitsOk t then Except.ok (natFromDigits (t.filter (· ≠ '_')) : Int)
      else Except.error (PyErr.valueError t)

/-- Model of Python `int(x)` applied to the result of `m.group(k)`:
`int(None)` raises `TypeError`. -/
def pyIntOfGroup : Option Str → Except PyErr Int
  | none => Except.error PyErr.typeError
  | some s => pyInt s

/-- The token `{n}` the replacement template embeds. -/
def tokN : Str := ['{', 'n', '}']

/-- The 5-character escaped form of the token, written to obtain a
literal token in the output. -/
def esc5 : Str := ['{', '{', '}', 'n', '}']

/-- The 3-character escape sequence that renders as a literal brace. -/
def esc3 : Str := ['{', '{', '}']

/-- Model of the call `replacement_n.replace("{n}", num)`
(batchrename.py lines 271 and 282): leftmost, non-overlapping scan;
the inserted text is not rescanned. -/
def substN (num : Str) : Str → Str
  | [] => []
  | '{' :: 'n' :: '}' :: rest => num ++ substN num rest
  | c :: rest => c :: substN num rest

/-- Model of the call `replacement_n.replace("{{}", "{")`
(batchrename.py line 287): leftmost, non-overlapping scan. -/
def unesc : Str → Str
  | [] => []
  | '{' :: '{' :: '}' :: rest => '{' :: unesc rest
  | c :: rest => c :: unesc rest

/-- `pat` occurs as a contiguous substring of `s`. -/
def occursIn (pat s : Str) : Prop :=
  ∃ a b, s = a ++ pat ++ b

/-- Result of a successful `re` match: the captured groups, 1-based
(`groups[k-1]` models `m.group(k)`, `none` for a group that did not
participate in the match). -/
structure ReMatch where
  groups : List (Option Str)
deriving DecidableEq

/-- Model of the compiled pattern object `re.compile(pattern, flags)`:
the two operations `batch_rename` uses.  `rmatch` models
`matcher.match(s)` (anchored at the start of `s`); `rsub rep s` models
`matcher.sub(rep, s)` (replace every non-overlapping occurrence,
scanning left to right). -/
structure Matcher where
  rmatch : Str → Option ReMatch
  rsub : Str → Str → Str

/-- Model of `m.group(k)` for `k ≥ 1`: `IndexError` when the pattern has
fewer than `k` groups. -/
def reGroup (m : ReMatch) (k : Nat) : Except PyErr (Option Str) :=
  if h : k - 1 < m.groups.length then Except.ok (m.groups.get ⟨k - 1, h⟩)
  else Except.error PyErr.indexError

/-- The configuration object (`BatchRenameConfig`).  The compiled
`pattern`/`regex_flags` pair is represented by the `Matcher` passed to
the engine alongside the configuration; the logger is not modelled
(log records are not among the observable effects the claims concern). -/
structure BatchRenameConfig where
  replacement : Str
  files : List Str
  renumber_from : Int
  renumber_offset : Int
  zero_pad : Int
  renumber_match_group : Option Nat
  dry_run : Bool

/-- The group-based arm of the numeral substitution (batchrename.py
lines 265-277): re-match the pattern against the old path; on a match,
read the designated group, parse it with `int`, add the offset and
substitute; when the anchored match fails, leave the replacement text
untouched. -/
def groupReplacement (M : Matcher) (cfg : BatchRenameConfig) (g : Nat) (old_file : Str) :
    Except PyErr Str :=
  match M.rmatch old_file with
  | some m =>
    match reGroup m g with
    | Except.error e => Except.error e
    | Except.ok gv =>
      match pyIntOfGroup gv with
      | Except.error e => Except.error e
      | Except.ok old_n =>
        Except.ok (substN (formatN (old_n + cfg.renumber_offset) cfg.zero_pad)
          cfg.replacement)
  | none => Except.ok cfg.replacement

/-- The per-item replacement text after the numeral-substitution step
(batchrename.py lines 261-283): the body of the `for` loop up to and
including the `{n}` replacement.  `if cfg.renumber_match_group:` is
Python truthiness: `None` and `0` both select order-based numbering. -/
def replacementFor (M : Matcher) (cfg : BatchRenameConfig) (idx : Int) (old_file : Str) :
    Except PyErr Str :=
  match cfg.renumber_match_group with
  | some g =>
    if g = 0 then
      Except.ok (substN (formatN idx cfg.zero_pad) cfg.replacement)
    else groupReplacement M cfg g old_file
  | none =>
    Except.ok (substN (formatN idx cfg.zero_pad) cfg.replacement)

/-- The newly computed path for one item (batchrename.py line 287-289):
un-escape the replacement text, then apply `matcher.sub` to the whole
old path. -/
def new_file_of (M : Matcher) (cfg : BatchRenameConfig) (idx : Int) (old_file : Str) :
    Except PyErr Str :=
  match replacementFor M cfg idx old_file with
  | Except.error e => Except.error e
  | Except.ok replacement_n => Except.ok (M.rsub (unesc replacement_n) old_file)

/-- The decision the engine reaches for one item. -/
inductive RenameDecision where
  | unchanged : RenameDecision
  | renamed (src dst : Str) : RenameDecision
deriving DecidableEq

/-- Observable effects of the engine: a line printed to stdout (preview
mode) or a filesystem rename (apply mode). -/
inductive Effect where
  | printLine (line : Str) : Effect
  | fsRename (src dst : Str) : Effect
deriving DecidableEq

/-- The preview line `print(f"Rename: {old_file} -> {new_file}")`. -/
def renameMsg (old_file new_file : Str) : Str :=
  "Rename: ".toList ++ old_file ++ " -> ".toList ++ new_file

/-- One iteration of the `for` loop of `batch_rename`
(batchrename.py lines 259-300): decision plus observable effects. -/
def itemStep (M : Matcher) (cfg : BatchRenameConfig) (idx : Int) (old_file : Str) :
    Except PyErr (RenameDecision × List Effect) :=
  match new_file_of M cfg idx old_file with
  | Except.error e => Except.error e
  | Except.ok new_file =>
    if old_file = new_file then Except.ok (RenameDecision.unchanged, [])
    else if cfg.dry_run then
      Except.ok (RenameDecision.renamed old_file new_file,
        [Effect.printLine (renameMsg old_file new_file)])
    else
      Except.ok (RenameDecision.renamed old_file new_file,
        [Effect.fsRename old_file new_file])

/-- The loop `for idx, old_file in enumerate(cfg.files, cfg.renumber_from)`,
collecting the observable effects; an uncaught exception aborts the run. -/
def runFrom (M : Matcher) (cfg : BatchRenameConfig) : Int → List Str → Except PyErr (List Effect)
  | _, [] => Except.ok []
  | idx, f :: rest =>
    match itemStep M cfg idx f with
    | Except.error e => Except.error e
    | Except.ok (_, effs) =>
      match runFrom M cfg (idx + 1) rest with
      | Except.error e => Except.error e
      | Except.ok more => Except.ok (effs ++ more)

/-- Model of `batch_rename(cfg)` (batchrename.py lines 250-300), with
the compiled pattern passed as `M`. -/
def batch_rename (M : Matcher) (cfg : BatchRenameConfig) : Except PyErr (List Effect) :=
  runFrom M cfg cfg.renumber_from cfg.files

/-- The explicit-arguments branch of `gen_files` (batchrename.py lines
204-209): yield each argument; a `-` argument yields the
whitespace-stripped lines still available on standard input (the first
`-` exhausts the stream, later ones yield nothing). -/
def genFromArgs : List Str → List Str → List Str
  | _, [] => []
  | stdin, f :: rest =>
    if f = ['-'] then stdin.map pyStrip ++ genFromArgs [] rest
    else f :: genFromArgs stdin rest

/-- Model of `gen_files(files, glob_expr, walk_root)` (batchrename.py
lines 190-213).  `stdin` is the list of lines on standard input;
`globFn` and `walkFn` model the filesystem results of `glob.glob` and
`walk_tree`.  `elif glob_expr:` is Python truthiness: `None` and the
empty string both fall through to the tree walk. -/
def gen_files (stdin : List Str) (globFn : Str → List Str) (walkFn : Str → List Str)
    (files : List Str) (glob_expr : Option Str) (walk_root : Str) : List Str :=
  match files with
  | [] =>
    match glob_expr with
    | some g => if g ≠ [] then globFn g else walkFn walk_root
    | none => walkFn walk_root
  | _ :: _ => genFromArgs stdin files

/-- Model of `init_renumbering(renumber_group)` (batchrename.py lines
227-247).  The call `re.match(r"([0-9]+)(?:(\+|-)([0-9]+))?", s)` is an
anchored prefix match: group 1 greedily takes the leading digits; the
optional sign/offset part participates only when the character right
after the digits is a sign immediately followed by at least one digit;
trailing unmatched text is ignored (a prefix match, not a full match). -/
def init_renumbering (renumber_group : Option Str) : Except PyErr (Option Nat × Int) :=
  match renumber_group with
  | none => Except.ok (none, 0)
  | some s =>
    if s = [] then Except.ok (none, 0)
    else if s.takeWhile Char.isDigit = [] then
      Except.error (PyErr.valueError
        ("Invalid renumbering match group format: ".toList ++ s))
    else if (s.dropWhile Char.isDigit).headI = '+' ∧
        (s.dropWhile Char.isDigit).tail.takeWhile Char.isDigit ≠ [] then
      Except.ok (some (natFromDigits (s.takeWhile Char.isDigit)),
        (natFromDigits ((s.dropWhile Char.isDigit).tail.takeWhile Char.isDigit) : Int))
    else if (s.dropWhile Char.isDigit).headI = '-' ∧
        (s.dropWhile Char.isDigit).tail.takeWhile Char.isDigit ≠ [] then
      Except.ok (some (natFromDigits (s.takeWhile Char.isDigit)),
        -(natFromDigits ((s.dropWhile Char.isDigit).tail.takeWhile Char.isDigit) : Int))
    else Except.ok (some (natFromDigits (s.takeWhile Char.isDigit)), 0)

/-- Modelled from the spec: the renumbering-spec grammar the
specification states, `<digits>` or `<digits>('+'|'-')<digits>`, matched
against the whole string.  Used only to compare the specified grammar
with what `init_renumbering` actually accepts. -/
def grammarMatches (s : Str) : Bool :=
  let d1 := s.takeWhile Char.isDigit
  let r := s.dropWhile Char.isDigit
  d1 ≠ [] &&
    (r = [] ||
      match r with
      | c :: r2 => (c = '+' || c = '-') && r2 ≠ [] && r2.all Char.isDigit
      | [] => false)

/-- Leftmost non-overlapping replacement of a literal pattern, driven by
fuel (any fuel above the length of the scanned string is enough): the
behavior of `re.sub` for a pattern of plain literal characters and a
replacement without backslash escapes. -/
def replaceGo (pat rep : Str) : Nat → Str → Str
  | 0, s => s
  | fuel + 1, s =>
    if pat ≠ [] ∧ pat.isPrefixOf s then rep ++ replaceGo pat rep fuel (s.drop pat.length)
    else
      match s with
      | [] => []
      | c :: cs => c :: replaceGo pat rep fuel cs

/-- `re.sub` for a literal pattern: replace every non-overlapping
occurrence, scanning left to right. -/
def litReplace (pat rep s : Str) : Str :=
  replaceGo pat rep (s.length + 1) s

/-- Model of `re.compile(pat)` for a nonempty pattern of plain literal
characters (no metacharacters, no groups), for replacement strings
without backslash escapes: `match` tests whether the pattern is a
prefix of the string, `sub` replaces every occurrence. -/
def litMatcher (pat : Str) : Matcher where
  rmatch s := if pat.isPrefixOf s then some ⟨[]⟩ else none
  rsub rep s := litReplace pat rep s

/-- Anchored parse for the concrete pattern `file_(\d+)\.txt`: on
success, the text of capture group 1 and the rest of the string after
the match.  The greedy `\d+` cannot backtrack usefully here because a
shorter digit run would leave a digit where `\.` must match. -/
def parseFileNum (s : Str) : Option (Str × Str) :=
  match s with
  | 'f' :: 'i' :: 'l' :: 'e' :: '_' :: rest =>
    let ds := rest.takeWhile Char.isDigit
    if ds = [] then none
    else
      match rest.dropWhile Char.isDigit with
      | '.' :: 't' :: 'x' :: 't' :: r3 => some (ds, r3)
      | _ => none
  | _ => none

/-- Unanchored scan of `re.sub` for the pattern `file_(\d+)\.txt` with a
replacement without backslash escapes, driven by fuel. -/
def fileNumSubGo (rep : Str) : Nat → Str → Str
  | 0, s => s
  | fuel + 1, s =>
    match parseFileNum s with
    | some (_, r3) => rep ++ fileNumSubGo rep fuel r3
    | none =>
      match s with
      | [] => []
      | c :: cs => c :: fileNumSubGo rep fuel cs

/-- Model of `re.compile(r"file_(\d+)\.txt")`, for replacement strings
without backslash escapes. -/
def fileNumMatcher : Matcher where
  rmatch s := (parseFileNum s).map fun p => ⟨[some p.1]⟩
  rsub rep s := fileNumSubGo rep (s.length + 1) s

/-- Anchored parse for the concrete pattern `(a)?b`: on success, the
text of the optional capture group 1 (`none` when the group did not
participate) and the rest of the string after the match. -/
def parseOptAB (s : Str) : Option (Option Str × Str) :=
  match s with
  | 'a' :: 'b' :: r => some (some ['a'], r)
  | 'b' :: r => some (none, r)
  | _ => none

/-- Unanchored scan of `re.sub` for the pattern `(a)?b` with a
replacement without backslash escapes, driven by fuel. -/
def optABSubGo (rep : Str) : Nat → Str → Str
  | 0, s => s
  | fuel + 1, s =>
    match parseOptAB s with
    | some (_, r) => rep ++ optABSubGo rep fuel r
    | none =>
      match s with
      | [] => []
      | c :: cs => c :: optABSubGo rep fuel cs

/-- Model of `re.compile(r"(a)?b")`, for replacement strings without
backslash escapes: matches an optional `a` followed by `b`; capture
group 1 is unmatched (`None`) when the `a` is absent. -/
def optABMatcher : Matcher where
  rmatch s := (parseOptAB s).map fun p => ⟨[p.1]⟩
  rsub rep s := optABSubGo rep (s.length + 1) s

/-! ## Substring occurrence lemmas -/

theorem occursIn_cons (p : Str) (c : Char) {s : Str} (h : occursIn p s) : occursIn p (c :: s) := by
  obtain ⟨a, b, rfl⟩ := h
  exact ⟨c :: a, b, rfl⟩

theorem occursIn_append_left (p x : Str) {s : Str} (h : occursIn p s) : occursIn p (x ++ s) := by
  obtain ⟨a, b, rfl⟩ := h
  exact ⟨x ++ a, b, by simp⟩

theorem occursIn_append_right (p x : Str) {s : Str} (h : occursIn p s) : occursIn p (s ++ x) := by
  obtain ⟨a, b, rfl⟩ := h
  exact ⟨a, b ++ x, by simp⟩

/-- An occurrence in `c :: s` either starts at the head or lies in `s`. -/
theorem occursIn_cons_elim {p : Str} {c : Char} {s : Str} (h : occursIn p (c :: s)) :
    (∃ b, c :: s = p ++ b) ∨ occursIn p s := by
  obtain ⟨a, b, hab⟩ := h
  cases a with
  | nil => exact Or.inl ⟨b, by simpa using hab⟩
  | cons x a' =>
    right
    simp only [List.cons_append] at hab
    exact ⟨a', b, (List.cons.injEq ..).mp hab |>.2⟩

/-! ## The numeral-substitution and un-escape passes around the escape
sequence (claim C6) -/

theorem substN_esc5_append (num b : Str) : substN num (esc5 ++ b) = esc5 ++ substN num b := rfl

theorem unesc_esc5_append (b : Str) : unesc (esc5 ++ b) = tokN ++ unesc b := rfl

/-- The numeral-substitution pass never rewrites inside an occurrence of
the escaped token: every occurrence of `esc5` survives it. -/
theorem substN_keeps_esc5 (num : Str) {s : Str} (h : occursIn esc5 s) :
    occursIn esc5 (substN num s) := by
  induction s using substN.induct num with
  | case1 => exact h
  | case2 rest ih =>
    rcases occursIn_cons_elim h with ⟨b, hb⟩ | h1
    · simp [esc5] at hb
    rcases occursIn_cons_elim h1 with ⟨b, hb⟩ | h2
    · simp [esc5] at hb
    rcases occursIn_cons_elim h2 with ⟨b, hb⟩ | h3
    · simp [esc5] at hb
    rw [show substN num ('{' :: 'n' :: '}' :: rest) = num ++ substN num rest from rfl]
    exact occursIn_append_left _ _ (ih h3)
  | case3 c rest hne ih =>
    rcases occursIn_cons_elim h with ⟨b, hb⟩ | h1
    · rw [show esc5 ++ b = '{' :: '{' :: '}' :: 'n' :: '}' :: b from rfl] at hb
      rw [hb, show ('{' : Char) :: '{' :: '}' :: 'n' :: '}' :: b = esc5 ++ b from rfl,
        substN_esc5_append]
      exact ⟨[], substN num b, rfl⟩
    · have heq : substN num (c :: rest) = c :: substN num rest := by
        simp only [substN]
      rw [heq]
      exact occursIn_cons _ _ (ih h1)

/-- The un-escape pass turns every surviving occurrence of the escaped
token into a literal occurrence of the token. -/
theorem unesc_gives_tokN {u : Str} (h : occursIn esc5 u) : occursIn tokN (unesc u) := by
  induction u using unesc.induct with
  | case1 => obtain ⟨a, b, hab⟩ := h; simp [esc5] at hab
  | case2 rest ih =>
    rcases occursIn_cons_elim h with ⟨b, hb⟩ | h1
    · rw [show esc5 ++ b = '{' :: '{' :: '}' :: 'n' :: '}' :: b from rfl] at hb
      rw [show ('{' : Char) :: '{' :: '}' :: rest = esc5 ++ b from hb, unesc_esc5_append]
      exact ⟨[], unesc b, rfl⟩
    rcases occursIn_cons_elim h1 with ⟨b, hb⟩ | h2
    · simp [esc5] at hb
    rcases occursIn_cons_elim h2 with ⟨b, hb⟩ | h3
    · simp [esc5] at hb
    rw [show unesc ('{' :: '{' :: '}' :: rest) = '{' :: unesc rest from rfl]
    exact occursIn_cons _ _ (ih h3)
  | case3 c rest hne ih =>
    rcases occursIn_cons_elim h with ⟨b, hb⟩ | h1
    · exfalso
      rw [show esc5 ++ b = '{' :: '{' :: '}' :: 'n' :: '}' :: b from rfl] at hb
      have h1 := (List.cons.injEq ..).mp hb
      exact hne ('n' :: '}' :: b) h1.1 h1.2
    · have heq : unesc (c :: rest) = c :: unesc rest := by
        simp only [unesc]
      rw [heq]
      exact occursIn_cons _ _ (ih h1)

/-! ## Literal substitution inserts the replacement verbatim -/

/-- A literal-pattern substitution either leaves the string unchanged or
produces a string with the replacement inserted verbatim somewhere. -/
theorem replaceGo_eq_or_insert (pat rep : Str) :
    ∀ fuel s, replaceGo pat rep fuel s = s ∨ ∃ x y, replaceGo pat rep fuel s = x ++ rep ++ y := by
  intro fuel
  induction fuel with
  | zero => exact fun s => Or.inl rfl
  | succ fuel ih =>
    intro s
    by_cases hp : pat ≠ [] ∧ pat.isPrefixOf s
    · rw [show replaceGo pat rep (fuel + 1) s =
          rep ++ replaceGo pat rep fuel (s.drop pat.length) by
        simp only [replaceGo, if_pos hp]]
      exact Or.inr ⟨[], replaceGo pat rep fuel (s.drop pat.length), by simp⟩
    · match s with
      | [] => exact Or.inl (by simp only [replaceGo, if_neg hp])
      | c :: cs =>
        rw [show replaceGo pat rep (fuel + 1) (c :: cs) =
            c :: replaceGo pat rep fuel cs by
          simp only [replaceGo, if_neg hp]]
        rcases ih cs with h1 | ⟨x, y, h1⟩
        · exact Or.inl (by rw [h1])
        · exact Or.inr ⟨c :: x, y, by rw [h1]; rfl⟩

theorem litReplace_eq_or_insert (pat rep s : Str) :
    litReplace pat rep s = s ∨ ∃ x y, litReplace pat rep s = x ++ rep ++ y :=
  replaceGo_eq_or_insert pat rep (s.length + 1) s

/-! ## The formatted numeral (claim C8) -/

theorem digitChar_isDigit (m : Nat) : (digitChar m).isDigit = true := by
  rcases m with _|_|_|_|_|_|_|_|_|m <;> rfl

theorem natDigitsGo_all_digit : ∀ fuel n, ∀ c ∈ natDigitsGo fuel n, c.isDigit = true := by
  intro fuel
  induction fuel with
  | zero => intro n c hc; simp [natDigitsGo] at hc
  | succ fuel ih =>
    intro n c hc
    rw [natDigitsGo] at hc
    by_cases hn : n = 0
    · simp [hn] at hc
    · rw [if_neg hn] at hc
      rcases List.mem_append.mp hc with h | h
      · exact ih _ _ h
      · simp at h
        rw [h]
        exact digitChar_isDigit _

theorem natDigits_all_digit (n : Nat) : ∀ c ∈ natDigits n, c.isDigit = true := by
  intro c hc
  rw [natDigits] at hc
  by_cases hn : n = 0
  · simp [hn] at hc; rw [hc]; decide
  · rw [if_neg hn] at hc
    exact natDigitsGo_all_digit _ _ _ hc

theorem natDigits_ne_nil (n : Nat) : natDigits n ≠ [] := by
  rw [natDigits]
  by_cases hn : n = 0
  · simp [hn]
  · rw [if_neg hn]
    rw [show n + 1 = (n - 1) + 1 + 1 by omega, natDigitsGo, if_neg hn]
    simp

theorem isDigit_not_sign {c : Char} (h : c.isDigit = true) : ¬(c = '+' ∨ c = '-') := by
  rintro (rfl | rfl) <;> simp at h

/-- Padding produces a string of exactly `max` of the two lengths: at
least the requested width, and never shorter than the unpadded numeral
(no truncation). -/
theorem zfill_length (s : Str) (w : Int) : (zfill s w).length = max s.length w.toNat := by
  rw [zfill]
  by_cases h : s.length ≥ w.toNat
  · rw [if_pos h]; omega
  · rw [if_neg h]
    by_cases hnil : s = []
    · rw [if_pos hnil, hnil]; simp
    · rw [if_neg hnil]
      have hlen : 1 ≤ s.length := by
        cases s with
        | nil => exact absurd rfl hnil
        | cons c cs => simp
      by_cases hc : s.headI = '+' ∨ s.headI = '-'
      · rw [if_pos hc]
        simp only [List.length_cons, List.length_append, List.length_replicate,
          List.length_tail]
        omega
      · rw [if_neg hc]
        simp only [List.length_append, List.length_replicate]
        omega

/-- Shape of the formatted numeral: the decimal digits of the magnitude,
zero-padding inserted on the left of the magnitude, the sign character of
a negative value kept in front of the padding. -/
theorem formatN_spec (n w : Int) :
    (formatN n w).length = max (intStr n).length w.toNat ∧
    (∃ k, formatN n w = (if n < 0 then '-' :: (List.replicate k '0' ++ natDigits (-n).toNat)
                         else List.replicate k '0' ++ natDigits n.toNat)) := by
  refine ⟨zfill_length (intStr n) w, ?_⟩
  rw [formatN, zfill]
  have hnil : intStr n ≠ [] := by
    rw [intStr]
    by_cases hn : n < 0
    · rw [if_pos hn]; simp
    · rw [if_neg hn]; exact natDigits_ne_nil _
  by_cases hlen : (intStr n).length ≥ w.toNat
  · refine ⟨0, ?_⟩
    rw [if_pos hlen]
    by_cases hn : n < 0
    · rw [if_pos hn, intStr, if_pos hn]; rfl
    · rw [if_neg hn, intStr, if_neg hn]; rfl
  · rw [if_neg hlen, if_neg hnil]
    by_cases hn : n < 0
    · refine ⟨w.toNat - (intStr n).length, ?_⟩
      have hs : intStr n = '-' :: natDigits (-n).toNat := by rw [intStr, if_pos hn]
      rw [hs]
      simp only [List.headI, List.tail]
      rw [if_pos (Or.inr trivial), if_pos hn, ← hs]
    · refine ⟨w.toNat - (intStr n).length, ?_⟩
      have hs : intStr n = natDigits n.toNat := by rw [intStr, if_neg hn]
      have hcd : (intStr n).headI.isDigit = true := by
        rw [hs]
        match hd : natDigits n.toNat with
        | [] => exact absurd hd (natDigits_ne_nil _)
        | c :: rest =>
          simp only [List.headI]
          exact natDigits_all_digit _ c (by rw [hd]; exact List.mem_cons_self ..)
      rw [if_neg (isDigit_not_sign hcd), if_neg hn, hs]

def orderNewFile (M : Matcher) (cfg : BatchRenameConfig) (idx : Int) (old_file : Str) : Str :=
  M.rsub (unesc (substN (formatN idx cfg.zero_pad) cfg.replacement)) old_file

def orderDecision (M : Matcher) (cfg : BatchRenameConfig) (idx : Int) (old_file : Str) :
    RenameDecision :=
  if old_file = orderNewFile M cfg idx old_file then RenameDecision.unchanged
  else RenameDecision.renamed old_file (orderNewFile M cfg idx old_file)

def orderItemEffects (M : Matcher) (cfg : BatchRenameConfig) (idx : Int) (old_file : Str) :
    List Effect :=
  if old_file = orderNewFile M cfg idx old_file then []
  else if cfg.dry_run then
    [Effect.printLine (renameMsg old_file (orderNewFile M cfg idx old_file))]
  else [Effect.fsRename old_file (orderNewFile M cfg idx old_file)]

theorem replacementFor_order (M : Matcher) (cfg : BatchRenameConfig) (idx : Int) (f : Str)
    (h : cfg.renumber_match_group = none ∨ cfg.renumber_match_group = some 0) :
    replacementFor M cfg idx f =
      Except.ok (substN (formatN idx cfg.zero_pad) cfg.replacement) := by
  rcases h with h | h
  · rw [replacementFor, h]
  · rw [replacementFor, h]
    rfl

theorem new_file_of_order (M : Matcher) (cfg : BatchRenameConfig) (idx : Int) (f : Str)
    (h : cfg.renumber_match_group = none ∨ cfg.renumber_match_group = some 0) :
    new_file_of M cfg idx f = Except.ok (orderNewFile M cfg idx f) := by
  rw [new_file_of, replacementFor_order M cfg idx f h]
  rfl

theorem itemStep_order (M : Matcher) (cfg : BatchRenameConfig) (idx : Int) (f : Str)
    (h : cfg.renumber_match_group = none ∨ cfg.renumber_match_group = some 0) :
    itemStep M cfg idx f =
      Except.ok (orderDecision M cfg idx f, orderItemEffects M cfg idx f) := by
  rw [itemStep, new_file_of_order M cfg idx f h]
  show (if f = orderNewFile M cfg idx f then
      Except.ok (RenameDecision.unchanged, ([] : List Effect))
    else if cfg.dry_run then
      Except.ok (RenameDecision.renamed f (orderNewFile M cfg idx f),
        [Effect.printLine (renameMsg f (orderNewFile M cfg idx f))])
    else
      Except.ok (RenameDecision.renamed f (orderNewFile M cfg idx f),
        [Effect.fsRename f (orderNewFile M cfg idx f)])) = _
  rw [orderDecision, orderItemEffects]
  by_cases hf : f = orderNewFile M cfg idx f
  · rw [if_pos hf, if_pos hf, if_pos hf]
  · rw [if_neg hf, if_neg hf, if_neg hf]
    by_cases hd : cfg.dry_run
    · rw [if_pos hd, if_pos hd]
    · rw [if_neg hd, if_neg hd]

theorem runFrom_order (M : Matcher) (cfg : BatchRenameConfig)
    (h : cfg.renumber_match_group = none ∨ cfg.renumber_match_group = some 0) :
    ∀ (files : List Str) (start : Int),
      runFrom M cfg start files =
        Except.ok ((List.range files.length).flatMap
          fun i => orderItemEffects M cfg (start + i) (files.getD i [])) := by
  intro files
  induction files with
  | nil => intro start; simp [runFrom]
  | cons f rest ih =>
    intro start
    rw [runFrom, itemStep_order M cfg start f h, ih (start + 1)]
    show Except.ok (orderItemEffects M cfg start f ++
        ((List.range rest.length).flatMap
          fun i => orderItemEffects M cfg (start + 1 + i) (rest.getD i []))) = _
    refine congrArg Except.ok ?_
    rw [List.length_cons, List.range_succ_eq_map, List.flatMap_cons, List.flatMap_map]
    have h0 : orderItemEffects M cfg (start + ((0 : Nat) : Int)) ((f :: rest).getD 0 []) =
        orderItemEffects M cfg start f := by
      norm_num
    rw [h0]
    congr 1
    congr 1
    funext a
    rw [List.getD_cons_succ]
    have : start + ((Nat.succ a : Nat) : Int) = start + 1 + (a : Int) := by push_cast; ring
    rw [this]

/-! ## Group-based mode lemmas -/

/-- Unfolding of `replacementFor` when a match group is configured. -/
theorem replacementFor_of_some (M : Matcher) (cfg : BatchRenameConfig) (idx : Int) (f : Str)
    (g : Nat) (hg : cfg.renumber_match_group = some g) :
    replacementFor M cfg idx f =
      if g = 0 then Except.ok (substN (formatN idx cfg.zero_pad) cfg.replacement)
      else groupReplacement M cfg g f := by
  rw [replacementFor, hg]

/-- In group-based mode the computed replacement text does not mention
the running index at all. -/
theorem replacementFor_group_idx (M : Matcher) (cfg : BatchRenameConfig) (f : Str)
    (g : Nat) (hg : cfg.renumber_match_group = some g) (hg0 : g ≠ 0) (idx1 idx2 : Int) :
    replacementFor M cfg idx1 f = replacementFor M cfg idx2 f := by
  rw [replacementFor_of_some M cfg idx1 f g hg, replacementFor_of_some M cfg idx2 f g hg,
    if_neg hg0, if_neg hg0]

theorem itemStep_group_idx (M : Matcher) (cfg : BatchRenameConfig) (f : Str)
    (g : Nat) (hg : cfg.renumber_match_group = some g) (hg0 : g ≠ 0) (idx1 idx2 : Int) :
    itemStep M cfg idx1 f = itemStep M cfg idx2 f := by
  rw [itemStep, itemStep, new_file_of, new_file_of,
    replacementFor_group_idx M cfg f g hg hg0 idx1 idx2]

/-- In group-based mode, when the anchored match succeeds and the
designated group holds the text `gv` parsing to `v`, the numeral
substituted is `v + offset`, zero-padded. -/
theorem replacementFor_group_ok (M : Matcher) (cfg : BatchRenameConfig) (idx : Int) (f : Str)
    (g : Nat) (m : ReMatch) (gv : Option Str) (v : Int)
    (hg : cfg.renumber_match_group = some g) (hg0 : g ≠ 0)
    (hm : M.rmatch f = some m) (hgv : reGroup m g = Except.ok gv)
    (hv : pyIntOfGroup gv = Except.ok v) :
    replacementFor M cfg idx f =
      Except.ok (substN (formatN (v + cfg.renumber_offset) cfg.zero_pad) cfg.replacement) := by
  rw [replacementFor_of_some M cfg idx f g hg, if_neg hg0, groupReplacement]
  simp only [hm, hgv, hv]

/-- In group-based mode, when the anchored match fails the numeral
substitution is skipped entirely: the replacement text is returned
untouched, with no error. -/
theorem replacementFor_group_nomatch (M : Matcher) (cfg : BatchRenameConfig) (idx : Int)
    (f : Str) (g : Nat) (hg : cfg.renumber_match_group = some g) (hg0 : g ≠ 0)
    (hm : M.rmatch f = none) :
    replacementFor M cfg idx f = Except.ok cfg.replacement := by
  rw [replacementFor_of_some M cfg idx f g hg, if_neg hg0, groupReplacement]
  simp only [hm]

theorem new_file_of_group_nomatch (M : Matcher) (cfg : BatchRenameConfig) (idx : Int)
    (f : Str) (g : Nat) (hg : cfg.renumber_match_group = some g) (hg0 : g ≠ 0)
    (hm : M.rmatch f = none) :
    new_file_of M cfg idx f = Except.ok (M.rsub (unesc cfg.replacement) f) := by
  rw [new_file_of, replacementFor_group_nomatch M cfg idx f g hg hg0 hm]

/-! ## Step and loop shape lemmas -/

/-- An item whose computed new path equals its old path produces the
`unchanged` decision and no effect at all. -/
theorem itemStep_of_new_eq_old (M : Matcher) (cfg : BatchRenameConfig) (idx : Int) (f : Str)
    (h : new_file_of M cfg idx f = Except.ok f) :
    itemStep M cfg idx f = Except.ok (RenameDecision.unchanged, []) := by
  rw [itemStep, h]
  show (if f = f then _ else _) = _
  rw [if_pos rfl]

/-- A successful step lets the loop continue with the next item: the
run on `f :: rest` is the step's effects prepended to the run on
`rest` at the next index. -/
theorem runFrom_cons_ok (M : Matcher) (cfg : BatchRenameConfig) (idx : Int) (f : Str)
    (rest : List Str) (d : RenameDecision) (effs : List Effect)
    (h : itemStep M cfg idx f = Except.ok (d, effs)) :
    runFrom M cfg idx (f :: rest) =
      (runFrom M cfg (idx + 1) rest).map (fun more => effs ++ more) := by
  rw [runFrom, h]
  cases runFrom M cfg (idx + 1) rest <;> rfl

/-- A failing step aborts the whole run at that item. -/
theorem runFrom_cons_error (M : Matcher) (cfg : BatchRenameConfig) (idx : Int) (f : Str)
    (rest : List Str) (e : PyErr) (h : itemStep M cfg idx f = Except.error e) :
    runFrom M cfg idx (f :: rest) = Except.error e := by
  rw [runFrom, h]

/-! ## PathSource lemmas (claim C1) -/


theorem genFromArgs_exhausted : ∀ (b : List Str),
    genFromArgs [] b = b.filter (fun f => f ≠ ['-']) := by
  intro b
  induction b with
  | nil => rfl
  | cons f rest ih =>
    rw [genFromArgs]
    by_cases hf : f = ['-']
    · rw [if_pos hf, hf]
      simp [List.filter_cons, ih]
    · rw [if_neg hf]
      simp [List.filter_cons, hf, ih]

theorem genFromArgs_no_dash (stdin : List Str) : ∀ (files : List Str),
    ['-'] ∉ files → genFromArgs stdin files = files := by
  intro files
  induction files with
  | nil => intro _; rfl
  | cons f rest ih =>
    intro hnd
    have hf : f ≠ ['-'] := fun hf => hnd (by rw [hf]; exact List.mem_cons_self ..)
    rw [genFromArgs, if_neg hf, ih (fun hm => hnd (List.mem_cons_of_mem _ hm))]

theorem genFromArgs_split (stdin : List Str) : ∀ (a b : List Str), ['-'] ∉ a →
    genFromArgs stdin (a ++ ['-'] :: b) =
      a ++ stdin.map pyStrip ++ b.filter (fun f => f ≠ ['-']) := by
  intro a
  induction a with
  | nil =>
    intro b _
    rw [List.nil_append, genFromArgs, if_pos rfl, genFromArgs_exhausted]
    simp
  | cons x a' ih =>
    intro b hnd
    have hx : x ≠ ['-'] := fun hf => hnd (by rw [hf]; exact List.mem_cons_self ..)
    rw [List.cons_append, genFromArgs, if_neg hx,
      ih b (fun hm => hnd (List.mem_cons_of_mem _ hm))]
    simp

theorem gen_files_of_files_nonempty (stdin : List Str) (globFn walkFn : Str → List Str)
    (files : List Str) (hne : files ≠ []) (glob_expr : Option Str) (walk_root : Str) :
    gen_files stdin globFn walkFn files glob_expr walk_root = genFromArgs stdin files := by
  cases files with
  | nil => exact absurd rfl hne
  | cons f rest => rfl

/-! ## RenumberSpec parsing lemmas (claim C3) -/

theorem init_renumbering_error_of_nondigit (c : Char) (rest : Str) (hc : c.isDigit = false) :
    init_renumbering (some (c :: rest)) =
      Except.error (PyErr.valueError
        ("Invalid renumbering match group format: ".toList ++ (c :: rest))) := by
  rw [init_renumbering]
  rw [if_neg (List.cons_ne_nil c rest)]
  rw [List.takeWhile_cons, hc]
  rfl

theorem init_renumbering_ok_of_digit (c : Char) (rest : Str) (hc : c.isDigit = true) :
    ∃ g off, init_renumbering (some (c :: rest)) = Except.ok (some g, off) := by
  rw [init_renumbering]
  rw [if_neg (List.cons_ne_nil c rest)]
  rw [List.takeWhile_cons, hc]
  simp only [if_true]
  rw [if_neg (List.cons_ne_nil _ _)]
  by_cases h1 : (List.dropWhile Char.isDigit (c :: rest)).headI = '+' ∧
      (List.dropWhile Char.isDigit (c :: rest)).tail.takeWhile Char.isDigit ≠ []
  · rw [if_pos h1]; exact ⟨_, _, rfl⟩
  · rw [if_neg h1]
    by_cases h2 : (List.dropWhile Char.isDigit (c :: rest)).headI = '-' ∧
        (List.dropWhile Char.isDigit (c :: rest)).tail.takeWhile Char.isDigit ≠ []
    · rw [if_pos h2]; exact ⟨_, _, rfl⟩
    · rw [if_neg h2]; exact ⟨_, _, rfl⟩

/-! ## Claim theorems -/

/-- C1, counterexample: with the argument list `["a", "-", "b"]` and the
single stdin line `" x "`, `gen_files` yields `["a", "x", "b"]` — the
literal arguments before and after the `-` are still yielded, and the
produced sequence does not consist entirely of stdin lines, contrary to
the claim that reading stdin is mutually exclusive with yielding the
literal arguments. -/
theorem claim1_counterexample :
    gen_files [[' ', 'x', ' ']] (fun _ => []) (fun _ => [])
      [['a'], ['-'], ['b']] none ['.'] = [['a'], ['x'], ['b']] ∧
    ['a'] ∈ gen_files [[' ', 'x', ' ']] (fun _ => []) (fun _ => [])
      [['a'], ['-'], ['b']] none ['.'] ∧
    ['a'] ∉ [[' ', 'x', ' ']].map pyStrip := by
  refine ⟨by decide, by decide, by decide⟩

/-- C1 (amended): with a non-empty explicit path argument list, each
argument is yielded verbatim in order except that an argument `-` yields
the whitespace-trimmed lines still unread on standard input in its
place; the first `-` exhausts stdin, so later `-` arguments yield
nothing, and literal arguments before and after any `-` are still
yielded.  Without any `-` argument the list is yielded verbatim. -/
theorem claim1_pathsource_stdin (stdin : List Str) (globFn walkFn : Str → List Str)
    (glob_expr : Option Str) (walk_root : Str) (a b : List Str) (ha : ['-'] ∉ a) :
    gen_files stdin globFn walkFn (a ++ ['-'] :: b) glob_expr walk_root =
      a ++ stdin.map pyStrip ++ b.filter (fun f => f ≠ ['-']) ∧
    (a ≠ [] → gen_files stdin globFn walkFn a glob_expr walk_root = a) := by
  constructor
  · rw [gen_files_of_files_nonempty _ _ _ _ (by simp) _ _, genFromArgs_split stdin a b ha]
  · intro hne
    rw [gen_files_of_files_nonempty _ _ _ _ hne _ _, genFromArgs_no_dash stdin a ha]

theorem claim1_witness :
    (['-'] ∉ [['q']]) ∧
    gen_files [[' ', 'z']] (fun _ => []) (fun _ => [])
        ([['q']] ++ ['-'] :: [['-'], ['r']]) none ['.'] =
      [['q']] ++ [[' ', 'z']].map pyStrip ++ [['-'], ['r']].filter (fun f => f ≠ ['-']) :=
  ⟨by decide,
   (claim1_pathsource_stdin [[' ', 'z']] (fun _ => []) (fun _ => []) none ['.']
     [['q']] [['-'], ['r']] (by decide)).1⟩

/-- C3, counterexample: the string `"3+"` does not match the grammar
`<digits>` or `<digits>('+'|'-')<digits>` (it has a sign with no
trailing digits), yet `init_renumbering` accepts it and returns group 3
with offset 0, because `re.match` performs a prefix match, not a full
match.  The claim that every non-matching non-empty string raises a
format error is therefore false. -/
theorem claim3_counterexample :
    grammarMatches ['3', '+'] = false ∧
    init_renumbering (some ['3', '+']) = Except.ok (some 3, 0) ∧
    grammarMatches ['1', '2', 'a'] = false ∧
    init_renumbering (some ['1', '2', 'a']) = Except.ok (some 12, 0) := by
  refine ⟨by decide, by decide, by decide, by decide⟩

/-- C3 (amended): an absent or empty renumbering spec succeeds and
selects order-based numbering; a non-empty spec raises a format error
exactly when its first character is not a digit.  Any spec starting with
a digit is accepted: the leading digits give the group, a sign
immediately followed by digits gives the offset, and any trailing text
(including a bare sign) is silently ignored. -/
theorem claim3_renumber_spec_parse :
    init_renumbering none = Except.ok (none, 0) ∧
    init_renumbering (some []) = Except.ok (none, 0) ∧
    (∀ (c : Char) (rest : Str),
      (c.isDigit = false →
        init_renumbering (some (c :: rest)) =
          Except.error (PyErr.valueError
            ("Invalid renumbering match group format: ".toList ++ (c :: rest)))) ∧
      (c.isDigit = true →
        ∃ g off, init_renumbering (some (c :: rest)) = Except.ok (some g, off))) := by
  refine ⟨rfl, rfl, fun c rest => ?_⟩
  exact ⟨init_renumbering_error_of_nondigit c rest, init_renumbering_ok_of_digit c rest⟩

theorem claim3_witness :
    ('x'.isDigit = false) ∧
    init_renumbering (some ['x']) =
      Except.error (PyErr.valueError
        ("Invalid renumbering match group format: ".toList ++ ['x'])) ∧
    ('1'.isDigit = true) ∧
    (∃ g off, init_renumbering (some ['1', '+']) = Except.ok (some g, off)) :=
  ⟨by decide, (claim3_renumber_spec_parse.2.2 'x' []).1 (by decide), by decide,
   (claim3_renumber_spec_parse.2.2 '1' ['+']).2 (by decide)⟩

theorem itemStep_ok_of_new_file (M : Matcher) (cfg : BatchRenameConfig) (idx : Int)
    (f nf : Str) (h : new_file_of M cfg idx f = Except.ok nf) :
    ∃ d effs, itemStep M cfg idx f = Except.ok (d, effs) := by
  rw [itemStep, h]
  show ∃ d effs,
    (if f = nf then Except.ok (RenameDecision.unchanged, ([] : List Effect))
     else if cfg.dry_run then
       Except.ok (RenameDecision.renamed f nf, [Effect.printLine (renameMsg f nf)])
     else Except.ok (RenameDecision.renamed f nf, [Effect.fsRename f nf])) =
      Except.ok (d, effs)
  by_cases hf : f = nf
  · rw [if_pos hf]; exact ⟨_, _, rfl⟩
  · by_cases hd : cfg.dry_run
    · rw [if_neg hf, if_pos hd]; exact ⟨_, _, rfl⟩
    · rw [if_neg hf, if_neg hd]; exact ⟨_, _, rfl⟩

/-- C2, counterexample: pattern `(a)?b` with group-based renumbering on
group 1.  On the input `"b.txt"` the anchored match succeeds but group 1
does not participate (`m.group(1)` is `None`), so `int(None)` raises a
`TypeError`: the item is an error, the `{n}` token is not left in that
item's output, and the run aborts instead of continuing to the next
item `"x"` — contradicting the claim for items whose designated group is
absent or unmatched. -/
theorem claim2_counterexample :
    optABMatcher.rmatch ['b', '.', 't', 'x', 't'] = some ⟨[none]⟩ ∧
    itemStep optABMatcher
      { replacement := '{' :: 'n' :: '}' :: ['-', 'y']
      , files := [['b', '.', 't', 'x', 't'], ['x']]
      , renumber_from := 1, renumber_offset := 0, zero_pad := 1
      , renumber_match_group := some 1, dry_run := true } 1 ['b', '.', 't', 'x', 't'] =
      Except.error PyErr.typeError ∧
    batch_rename optABMatcher
      { replacement := '{' :: 'n' :: '}' :: ['-', 'y']
      , files := [['b', '.', 't', 'x', 't'], ['x']]
      , renumber_from := 1, renumber_offset := 0, zero_pad := 1
      , renumber_match_group := some 1, dry_run := true } =
      Except.error PyErr.typeError := by
  refine ⟨by decide, by decide, by decide⟩

/-- C2 (amended): in group-based mode the benign "group unmatched" case
is exactly the one where the anchored `match` against the item fails: no
error is raised, the numeral substitution step is skipped (the
replacement template is passed on untouched, so a `{n}` token in it
stays unresolved in that item's output), the step succeeds and the run
continues with the next item.  When the anchored match succeeds but the
designated group is absent or did not participate, `int` raises and the
run aborts (see the counterexample). -/
theorem claim2_group_miss (M : Matcher) (cfg : BatchRenameConfig) (idx : Int) (f : Str)
    (g : Nat) (hg : cfg.renumber_match_group = some g) (hg0 : g ≠ 0)
    (hm : M.rmatch f = none) :
    replacementFor M cfg idx f = Except.ok cfg.replacement ∧
    new_file_of M cfg idx f = Except.ok (M.rsub (unesc cfg.replacement) f) ∧
    ∃ d effs, itemStep M cfg idx f = Except.ok (d, effs) ∧
      ∀ rest, runFrom M cfg idx (f :: rest) =
        (runFrom M cfg (idx + 1) rest).map (fun more => effs ++ more) := by
  refine ⟨replacementFor_group_nomatch M cfg idx f g hg hg0 hm,
    new_file_of_group_nomatch M cfg idx f g hg hg0 hm, ?_⟩
  obtain ⟨d, effs, hstep⟩ := itemStep_ok_of_new_file M cfg idx f _
    (new_file_of_group_nomatch M cfg idx f g hg hg0 hm)
  exact ⟨d, effs, hstep, fun rest => runFrom_cons_ok M cfg idx f rest d effs hstep⟩

theorem claim2_witness :
    optABMatcher.rmatch ['x', 'b'] = none ∧
    replacementFor optABMatcher
      { replacement := '{' :: 'n' :: '}' :: ['-', 'y']
      , files := [['x', 'b']]
      , renumber_from := 1, renumber_offset := 0, zero_pad := 1
      , renumber_match_group := some 1, dry_run := true } 1 ['x', 'b'] =
      Except.ok ('{' :: 'n' :: '}' :: ['-', 'y']) :=
  ⟨by decide,
   (claim2_group_miss optABMatcher
     { replacement := '{' :: 'n' :: '}' :: ['-', 'y']
     , files := [['x', 'b']]
     , renumber_from := 1, renumber_offset := 0, zero_pad := 1
     , renumber_match_group := some 1, dry_run := true } 1 ['x', 'b'] 1 rfl
     (by decide) (by decide)).1⟩

/-- Scenario-B configuration: start 17, pad 3, order-based numbering. -/
def mkCfgB : BatchRenameConfig :=
  { replacement := '{' :: 'n' :: '}' :: "-file.txt".toList
  , files := ["file_200.txt".toList, "file_300.txt".toList]
  , renumber_from := 17, renumber_offset := 0, zero_pad := 3
  , renumber_match_group := none, dry_run := true }

/-- Scenario-D configuration: renumber from match group 1 with offset
-150. -/
def mkCfgD : BatchRenameConfig :=
  { replacement := '{' :: 'n' :: '}' :: "-file.txt".toList
  , files := ["file_200.txt".toList]
  , renumber_from := 1, renumber_offset := -150, zero_pad := 1
  , renumber_match_group := some 1, dry_run := true }

/-- C4: in order-based numbering mode (no match group configured, or
match group 0, which Python truthiness treats the same) the numeral
substituted for the token in the item at 0-based position `i` is
`renumber_from + i` formatted with `formatN`, whatever the item is: the
per-item replacement text is always
`substN (formatN idx zero_pad) replacement`, and the whole run succeeds
with the item at position `i` processed at index `renumber_from + i` —
the counter advances by exactly one per item, with no condition on
whether the item matches or changes name. -/
theorem claim4_order_numbering (M : Matcher) (cfg : BatchRenameConfig)
    (h : cfg.renumber_match_group = none ∨ cfg.renumber_match_group = some 0) :
    (∀ (idx : Int) (f : Str),
      replacementFor M cfg idx f =
        Except.ok (substN (formatN idx cfg.zero_pad) cfg.replacement)) ∧
    batch_rename M cfg =
      Except.ok ((List.range cfg.files.length).flatMap
        fun i => orderItemEffects M cfg (cfg.renumber_from + i) (cfg.files.getD i [])) :=
  ⟨fun idx f => replacementFor_order M cfg idx f h,
   runFrom_order M cfg h cfg.files cfg.renumber_from⟩

theorem claim4_witness :
    ((mkCfgB : BatchRenameConfig).renumber_match_group = none ∨
      (mkCfgB : BatchRenameConfig).renumber_match_group = some 0) ∧
    batch_rename fileNumMatcher mkCfgB =
      Except.ok ((List.range mkCfgB.files.length).flatMap
        fun i => orderItemEffects fileNumMatcher mkCfgB (mkCfgB.renumber_from + i)
          (mkCfgB.files.getD i [])) ∧
    batch_rename fileNumMatcher mkCfgB =
      Except.ok [Effect.printLine ("Rename: file_200.txt -> 017-file.txt".toList),
                 Effect.printLine ("Rename: file_300.txt -> 018-file.txt".toList)] :=
  ⟨Or.inl rfl, (claim4_order_numbering fileNumMatcher mkCfgB (Or.inl rfl)).2, by decide⟩

/-- C5: in group-based numbering mode the step result for an item does
not depend on the item's position in the sequence (the running index is
never consulted), and when the anchored match succeeds with the
designated group parsing to the integer `v`, the numeral substituted is
`v + renumber_offset`, zero-padded. -/
theorem claim5_group_numbering (M : Matcher) (cfg : BatchRenameConfig) (f : Str) (g : Nat)
    (hg : cfg.renumber_match_group = some g) (hg0 : g ≠ 0) :
    (∀ idx1 idx2, itemStep M cfg idx1 f = itemStep M cfg idx2 f) ∧
    (∀ (idx : Int) (m : ReMatch) (gv : Option Str) (v : Int),
      M.rmatch f = some m → reGroup m g = Except.ok gv → pyIntOfGroup gv = Except.ok v →
      replacementFor M cfg idx f =
        Except.ok (substN (formatN (v + cfg.renumber_offset) cfg.zero_pad) cfg.replacement)) :=
  ⟨fun idx1 idx2 => itemStep_group_idx M cfg f g hg hg0 idx1 idx2,
   fun idx m gv v hm hgv hv =>
     replacementFor_group_ok M cfg idx f g m gv v hg hg0 hm hgv hv⟩

theorem claim5_witness :
    (mkCfgD.renumber_match_group = some 1) ∧
    fileNumMatcher.rmatch "file_200.txt".toList = some ⟨[some ['2', '0', '0']]⟩ ∧
    reGroup ⟨[some ['2', '0', '0']]⟩ 1 = Except.ok (some ['2', '0', '0']) ∧
    pyIntOfGroup (some ['2', '0', '0']) = Except.ok 200 ∧
    itemStep fileNumMatcher mkCfgD 1 "file_200.txt".toList =
      itemStep fileNumMatcher mkCfgD 999 "file_200.txt".toList ∧
    replacementFor fileNumMatcher mkCfgD 1 "file_200.txt".toList =
      Except.ok (substN (formatN (200 + mkCfgD.renumber_offset) mkCfgD.zero_pad)
        mkCfgD.replacement) :=
  ⟨rfl, by decide, by decide, by decide,
   (claim5_group_numbering fileNumMatcher mkCfgD "file_200.txt".toList 1 rfl
     (by decide)).1 1 999,
   (claim5_group_numbering fileNumMatcher mkCfgD "file_200.txt".toList 1 rfl
     (by decide)).2 1 ⟨[some ['2', '0', '0']]⟩ (some ['2', '0', '0']) 200
     (by decide) (by decide) (by decide)⟩

/-- C6: the escape round-trip.  For a replacement template containing
the 5-character sequence `esc5`, the numeral-substitution pass leaves
the sequence intact (it is never numeral-substituted), the subsequent
un-escape pass yields a literal token `tokN` in the resolved template,
the un-escape pass runs after numeral substitution and before the regex
substitution in the computed new name, and whenever the regex
substitution changes the item (inserting the resolved template), the
literal token appears in the computed output name. -/
theorem claim6_escape_roundtrip (r : Str) (n z : Int) (h5 : occursIn esc5 r) :
    occursIn esc5 (substN (formatN n z) r) ∧
    occursIn tokN (unesc (substN (formatN n z) r)) ∧
    (∀ (M : Matcher) (cfg : BatchRenameConfig) (idx : Int) (old_file : Str) (rn : Str),
      replacementFor M cfg idx old_file = Except.ok rn →
      new_file_of M cfg idx old_file = Except.ok (M.rsub (unesc rn) old_file)) ∧
    (∀ (M : Matcher) (old_file : Str),
      (∀ rep s, M.rsub rep s = s ∨ ∃ x y, M.rsub rep s = x ++ rep ++ y) →
      M.rsub (unesc (substN (formatN n z) r)) old_file ≠ old_file →
      occursIn tokN (M.rsub (unesc (substN (formatN n z) r)) old_file)) := by
  have hA := substN_keeps_esc5 (formatN n z) h5
  have hB := unesc_gives_tokN hA
  refine ⟨hA, hB, ?_, ?_⟩
  · intro M cfg idx old_file rn h
    rw [new_file_of, h]
  · intro M old_file hsub hneq
    rcases hsub (unesc (substN (formatN n z) r)) old_file with h | ⟨x, y, h⟩
    · exact absurd h hneq
    · rw [h]
      exact occursIn_append_right _ _ (occursIn_append_left _ _ hB)

theorem claim6_witness :
    occursIn esc5 ('{' :: '{' :: '}' :: 'n' :: '}' :: ['-', 'x']) ∧
    occursIn esc5 (substN (formatN 3 2) ('{' :: '{' :: '}' :: 'n' :: '}' :: ['-', 'x'])) ∧
    occursIn tokN (unesc (substN (formatN 3 2)
      ('{' :: '{' :: '}' :: 'n' :: '}' :: ['-', 'x']))) ∧
    unesc (substN (formatN 3 2) ('{' :: '{' :: '}' :: 'n' :: '}' :: ['-', 'x'])) =
      '{' :: 'n' :: '}' :: ['-', 'x'] :=
  ⟨⟨[], ['-', 'x'], rfl⟩,
   (claim6_escape_roundtrip _ 3 2 ⟨[], ['-', 'x'], rfl⟩).1,
   (claim6_escape_roundtrip _ 3 2 ⟨[], ['-', 'x'], rfl⟩).2.1,
   by decide⟩

/-- C7: when the computed new path equals the old path the decision is
`unchanged`, with no filesystem rename and no preview line (no effect at
all), and the loop continues with the next item. -/
theorem claim7_unchanged_no_effect (M : Matcher) (cfg : BatchRenameConfig) (idx : Int)
    (f : Str) (h : new_file_of M cfg idx f = Except.ok f) :
    itemStep M cfg idx f = Except.ok (RenameDecision.unchanged, []) ∧
    ∀ rest, runFrom M cfg idx (f :: rest) =
      (runFrom M cfg (idx + 1) rest).map (fun more => more) := by
  refine ⟨itemStep_of_new_eq_old M cfg idx f h, fun rest => ?_⟩
  have := runFrom_cons_ok M cfg idx f rest _ _ (itemStep_of_new_eq_old M cfg idx f h)
  simpa using this

theorem claim7_witness :
    new_file_of (litMatcher ['z', 'z', 'z'])
      { replacement := ['q'], files := [['a']]
      , renumber_from := 1, renumber_offset := 0, zero_pad := 1
      , renumber_match_group := none, dry_run := true } 1 ['a'] = Except.ok ['a'] ∧
    itemStep (litMatcher ['z', 'z', 'z'])
      { replacement := ['q'], files := [['a']]
      , renumber_from := 1, renumber_offset := 0, zero_pad := 1
      , renumber_match_group := none, dry_run := true } 1 ['a'] =
      Except.ok (RenameDecision.unchanged, []) :=
  ⟨by decide,
   (claim7_unchanged_no_effect (litMatcher ['z', 'z', 'z'])
     { replacement := ['q'], files := [['a']]
     , renumber_from := 1, renumber_offset := 0, zero_pad := 1
     , renumber_match_group := none, dry_run := true } 1 ['a'] (by decide)).1⟩

/-- C8: the formatted numeral is the decimal representation of `n`,
left-padded with zeros to at least `zeroPad` characters and never
truncated (its length is the maximum of the width and the unpadded
length), and a negative `n` keeps its leading sign character with the
padding inserted between the sign and the magnitude, the width counting
the sign-plus-magnitude string as a whole. -/
theorem claim8_numeral_format (n w : Int) (hw : 0 < w) :
    (formatN n w).length = max (intStr n).length w.toNat ∧
    w.toNat ≤ (formatN n w).length ∧
    (∃ k, formatN n w = (if n < 0 then '-' :: (List.replicate k '0' ++ natDigits (-n).toNat)
                         else List.replicate k '0' ++ natDigits n.toNat)) := by
  obtain ⟨h1, h2⟩ := formatN_spec n w
  exact ⟨h1, by rw [h1]; exact le_max_right _ _, h2⟩

theorem claim8_witness :
    (0 : Int) < 4 ∧
    (formatN (-5) 4).length = max (intStr (-5)).length (4 : Int).toNat ∧
    (4 : Int).toNat ≤ (formatN (-5) 4).length ∧
    (∃ k, formatN (-5) 4 =
      (if (-5 : Int) < 0 then '-' :: (List.replicate k '0' ++ natDigits (-(-5 : Int)).toNat)
       else List.replicate k '0' ++ natDigits (-5 : Int).toNat)) ∧
    formatN (-5) 4 = ['-', '0', '0', '5'] :=
  ⟨by decide, (claim8_numeral_format (-5) 4 (by decide)).1,
   (claim8_numeral_format (-5) 4 (by decide)).2.1,
   (claim8_numeral_format (-5) 4 (by decide)).2.2, by decide⟩

/-- C9: a renumbering spec whose group index parses to 0 is accepted
without error by `init_renumbering` (for example `"0"` and `"0+5"`),
and at the mode-selection check (`if cfg.renumber_match_group:`) the
Python-falsy group 0 behaves exactly like no group at all: the step is
identical to the order-based one. -/
theorem claim9_group_zero_order_mode :
    init_renumbering (some ['0']) = Except.ok (some 0, 0) ∧
    init_renumbering (some ['0', '+', '5']) = Except.ok (some 0, 5) ∧
    ∀ (M : Matcher) (cfg : BatchRenameConfig) (idx : Int) (f : Str),
      cfg.renumber_match_group = some 0 →
      itemStep M cfg idx f =
        itemStep M { cfg with renumber_match_group := none } idx f := by
  refine ⟨by decide, by decide, fun M cfg idx f hg => ?_⟩
  simp only [itemStep, new_file_of, replacementFor, hg]
  rfl

theorem claim9_witness :
    itemStep (litMatcher ['z'])
      { replacement := ['q'], files := [['a']]
      , renumber_from := 1, renumber_offset := 0, zero_pad := 1
      , renumber_match_group := some 0, dry_run := true } 1 ['a'] =
      itemStep (litMatcher ['z'])
        { replacement := ['q'], files := [['a']]
        , renumber_from := 1, renumber_offset := 0, zero_pad := 1
        , renumber_match_group := none, dry_run := true } 1 ['a'] :=
  claim9_group_zero_order_mode.2.2 (litMatcher ['z'])
    { replacement := ['q'], files := [['a']]
    , renumber_from := 1, renumber_offset := 0, zero_pad := 1
    , renumber_match_group := some 0, dry_run := true } 1 ['a'] rfl

/-- C10: the renumbering match is anchored at the start of the path
(`matcher.match`) while the final substitution searches anywhere
(`matcher.sub`).  In group-based mode, for a path on which the anchored
match fails but the substitution still changes the path, the step
produces a `renamed` decision whose new name is computed from the
un-numeraled template — so a `{n}` token in the resolved template
appears literally in the new name. -/
theorem claim10_anchored_vs_search (M : Matcher) (cfg : BatchRenameConfig) (idx : Int)
    (p : Str) (g : Nat)
    (hg : cfg.renumber_match_group = some g) (hg0 : g ≠ 0)
    (hm : M.rmatch p = none)
    (hsub : ∀ rep s, M.rsub rep s = s ∨ ∃ x y, M.rsub rep s = x ++ rep ++ y)
    (htok : occursIn tokN (unesc cfg.replacement))
    (hne : M.rsub (unesc cfg.replacement) p ≠ p) :
    itemStep M cfg idx p =
      Except.ok (RenameDecision.renamed p (M.rsub (unesc cfg.replacement) p),
        if cfg.dry_run then
          [Effect.printLine (renameMsg p (M.rsub (unesc cfg.replacement) p))]
        else [Effect.fsRename p (M.rsub (unesc cfg.replacement) p)]) ∧
    occursIn tokN (M.rsub (unesc cfg.replacement) p) := by
  constructor
  · rw [itemStep, new_file_of_group_nomatch M cfg idx p g hg hg0 hm]
    show (if p = M.rsub (unesc cfg.replacement) p then
        Except.ok (RenameDecision.unchanged, ([] : List Effect))
      else if cfg.dry_run then
        Except.ok (RenameDecision.renamed p (M.rsub (unesc cfg.replacement) p),
          [Effect.printLine (renameMsg p (M.rsub (unesc cfg.replacement) p))])
      else
        Except.ok (RenameDecision.renamed p (M.rsub (unesc cfg.replacement) p),
          [Effect.fsRename p (M.rsub (unesc cfg.replacement) p)])) = _
    rw [if_neg (fun h => hne h.symm)]
    by_cases hd : cfg.dry_run
    · rw [if_pos hd, if_pos hd]
    · rw [if_neg hd, if_neg hd]
  · rcases hsub (unesc cfg.replacement) p with h | ⟨x, y, h⟩
    · exact absurd h hne
    · rw [h]
      exact occursIn_append_right _ _ (occursIn_append_left _ _ htok)

theorem claim10_witness :
    (litMatcher ['b']).rmatch ['a', 'b'] = none ∧
    (litMatcher ['b']).rsub (unesc ('{' :: 'n' :: '}' :: ['-', 'y'])) ['a', 'b'] ≠ ['a', 'b'] ∧
    itemStep (litMatcher ['b'])
      { replacement := '{' :: 'n' :: '}' :: ['-', 'y'], files := [['a', 'b']]
      , renumber_from := 1, renumber_offset := 0, zero_pad := 1
      , renumber_match_group := some 1, dry_run := true } 1 ['a', 'b'] =
      Except.ok (RenameDecision.renamed ['a', 'b']
          ('a' :: '{' :: 'n' :: '}' :: ['-', 'y']),
        [Effect.printLine (renameMsg ['a', 'b'] ('a' :: '{' :: 'n' :: '}' :: ['-', 'y']))]) ∧
    occursIn tokN ((litMatcher ['b']).rsub
      (unesc ('{' :: 'n' :: '}' :: ['-', 'y'])) ['a', 'b']) := by
  have h10 := claim10_anchored_vs_search (litMatcher ['b'])
    { replacement := '{' :: 'n' :: '}' :: ['-', 'y'], files := [['a', 'b']]
    , renumber_from := 1, renumber_offset := 0, zero_pad := 1
    , renumber_match_group := some 1, dry_run := true } 1 ['a', 'b'] 1 rfl
    (by decide) (by decide) (fun rep s => litReplace_eq_or_insert ['b'] rep s)
    ⟨[], ['-', 'y'], by decide⟩ (by decide)
  exact ⟨by decide, by decide, by exact h10.1.trans (by decide), h10.2⟩
